import Mathlib

/-!
Shallow embedding of the transactional core of
`src/hospital_management_system.py`: the `MedicineInventory` and
`PatientManager` classes and the price lookups of the report generators.

A Python `dict` keyed by strings is embedded as an insertion-ordered
association list `List (String × β)`; `dictLookup`, `dictSet` and `dictDel`
mirror `d[k]`/`k in d`, `d[k] = v` (update in place if the key is present,
append otherwise) and `del d[k]`. A list that really arose from a `dict`
has pairwise-distinct keys; theorems that need this carry the hypothesis
`(dictKeys l).Nodup`.

Python integers are embedded as `Int` (they are unbounded and the code
never guards against negative values), Python float prices as `Rat`
(the report arithmetic at issue — a missing medicine contributing price
`0.0` — is exact in either carrier). The in-place mutation of the two
singleton objects is embedded as explicit state passing; `st.error(...);
return` paths return the unmodified state together with a typed error,
matching the spec's error taxonomy.
-/

namespace HospitalManagementSystem

/-- `d.get(key)` / `d[key]` on an insertion-ordered association list. -/
def dictLookup {β : Type} : List (String × β) → String → Option β
  | [], _ => none
  | (k, v) :: rest, key => if k = key then some v else dictLookup rest key

/-- `d[key] = val`: overwrite in place when the key is present, append
otherwise (Python dicts preserve insertion order). -/
def dictSet {β : Type} : List (String × β) → String → β → List (String × β)
  | [], key, val => [(key, val)]
  | (k, v) :: rest, key, val =>
      if k = key then (k, val) :: rest else (k, v) :: dictSet rest key val

/-- `del d[key]`: drop the first (for a genuine dict: the only) binding. -/
def dictDel {β : Type} : List (String × β) → String → List (String × β)
  | [], _ => []
  | (k, v) :: rest, key => if k = key then rest else (k, v) :: dictDel rest key

/-- `list(d.keys())`. -/
def dictKeys {β : Type} (l : List (String × β)) : List String := l.map Prod.fst

/-- One value of the `medicines` dict: `{"quantity": ..., "price": ...}`. -/
structure MedData where
  quantity : Int
  price : Rat
deriving DecidableEq

/-- The state owned by `MedicineInventory`: its `medicines` dict. -/
abbrev Medicines := List (String × MedData)

/-- The typed failure conditions of the inventory operations (in the source
they surface as `st.error(...)` followed by an early `return`). -/
inductive InvError
  | DuplicateKey
  | NotFound
deriving DecidableEq

/-- `MedicineInventory.add_medicine`. -/
def add_medicine (m : Medicines) (name : String) (quantity : Int)
    (price : Rat) : Except InvError Medicines :=
  if (dictLookup m name).isSome then
    .error .DuplicateKey
  else
    .ok (dictSet m name ⟨quantity, price⟩)

/-- `MedicineInventory.update_quantity`. -/
def update_quantity (m : Medicines) (name : String) (new_quantity : Int) :
    Except InvError Medicines :=
  match dictLookup m name with
  | none => .error .NotFound
  | some d => .ok (dictSet m name { d with quantity := new_quantity })

/-- `MedicineInventory.delete_medicine`. -/
def delete_medicine (m : Medicines) (name : String) :
    Except InvError Medicines :=
  if (dictLookup m name).isSome then
    .ok (dictDel m name)
  else
    .error .NotFound

/-- `MedicineInventory.check_availability`: `False` when the name is absent,
otherwise `quantity >= required_qty`. A pure query — it takes the state and
returns only a `Bool`. -/
def check_availability (m : Medicines) (name : String) (required_qty : Int) :
    Bool :=
  match dictLookup m name with
  | none => false
  | some d => required_qty ≤ d.quantity

/-- `MedicineInventory.deduct_quantity`: re-checks availability; on success
decrements the quantity and returns `true`, otherwise leaves the state
untouched and returns `false`. -/
def deduct_quantity (m : Medicines) (name : String) (qty : Int) :
    Bool × Medicines :=
  if check_availability m name qty then
    match dictLookup m name with
    | none => (true, m)
    | some d => (true, dictSet m name { d with quantity := d.quantity - qty })
  else
    (false, m)

/-- `MedicineInventory.get_low_stock`: the entries with quantity strictly
below the fixed threshold 10, in insertion order. -/
def get_low_stock (m : Medicines) : Medicines :=
  m.filter fun e => e.2.quantity < 10

/-- `MedicineInventory.get_default_medicines`: the seed catalog, every entry
`{"quantity": 50, "price": 10.0}`. -/
def get_default_medicines : Medicines :=
  [ "Ibupara", "Paracetamol 500mg", "Paracetamol 650 mg", "Dicyclomine hcl",
    "Cheston cold", "B.complex (mvbc)", "Diclofenac50mg", "Avil25mg",
    "Ceterizen 10 mg", "Pantop 40 mg", "Norfloxacin & Tinidazole",
    "Metronidazole", "Azithromycin 500mg", "Ciprofloxacin", "Ofloxacin",
    "Cefixime 200 mg", "Combit of fluconazole", "Ivermectin 12 mg", "Ors",
    "Luperamide", "Alprazolam 0.5", "Sorbitrat 5mg", "Amlodipine",
    "Tube miconazole", "Tube Diclofenac", "Tube fusidic acid",
    "Tube povidone", "Bandage 6 inch", "Bandage 4 inch", "Ivf.Ns 100ml",
    "Ivf.Ns 500 ml", "Ivf.DNS 500 ml", "Ivf.5D 500 ml", "Syringe 2 ml",
    "Syringe 5ml", "Syringe 10 ml", "Syringe 3 ml",
    "Hydrogen peroxide 500ml", "Microstrile 500ml", "Malti vitamin 200ml",
    "Paracetamol 60ml", "Cheston cold 60ml", "C-zen plus 60ml (ctz)",
    "Albendazole 10ml", "Amoxycillin suspension 30ml",
    "Ciprofloxacin eye drop 10ml", "Avil 75mg",
    "Hyoscine butylbromide 20mg (biscogen)", "Sodium bicarbonate 7.5 w/v",
    "Optineuronforte 3ml", "Diclofenac sodium 75mg/ml (Dynapar)",
    "Phenytoin sodium 50mg", "Paracetamol 150mg/ml", "Ondansetron 2ml",
    "Gentamycin 2ml", "Dopamine 40mg", "Oxytocin 1ml",
    "Adrenaline bitartrate 1ml", "Atropine sulphate 1ml",
    "Trenaxamic acid 500mg", "Tetanus (T.T.) 0.5ml", "Oxidocin"
  ].map fun med => (med, ⟨50, 10⟩)

/-- One prescription dict: `{"date": str(datetime.now()), "medicines": ...}`.
`medicines` is the caller's dict of (medicine name, quantity) line items. -/
structure Prescription where
  date : String
  medicines : List (String × Int)
deriving DecidableEq

/-- One value of the `patients` dict:
`{"age": ..., "gender": ..., "prescriptions": [...]}`. -/
structure Patient where
  age : Int
  gender : String
  prescriptions : List Prescription
deriving DecidableEq

/-- The combined state a `PatientManager` reads and writes: its own
`patients` dict and the shared `MedicineInventory` state. -/
structure PMState where
  patients : List (String × Patient)
  inventory : Medicines
deriving DecidableEq

/-- The outcome of `PatientManager.add_prescription`: the returned
prescription on success, or the typed failure the `st.error` branches
report (`insufficientStock` names the first failing medicine). -/
inductive PrescResult
  | ok (p : Prescription)
  | notFound
  | insufficientStock (med : String)
deriving DecidableEq

/-- `PatientManager.add_patient`. -/
def add_patient (st : PMState) (name : String) (age : Int) (gender : String) :
    Except InvError PMState :=
  if (dictLookup st.patients name).isSome then
    .error .DuplicateKey
  else
    .ok { st with
          patients := dictSet st.patients name ⟨age, gender, []⟩ }

/-- The validation loop of `add_prescription`: walk the line items and stop
at the first one whose `check_availability` fails. The loop body only reads
the inventory, so the whole loop is a pure query; `none` means every item
passed, `some med` names the first insufficient medicine. -/
def validate_items (inv : Medicines) : List (String × Int) → Option String
  | [] => none
  | (med, qty) :: rest =>
      if check_availability inv med qty then validate_items inv rest
      else some med

/-- The commit loop of `add_prescription`: `deduct_quantity` for every line
item in order, threading the inventory state; the boolean result of each
deduction is discarded, exactly as in the source. -/
def deduct_items (inv : Medicines) : List (String × Int) → Medicines
  | [] => inv
  | (med, qty) :: rest => deduct_items (deduct_quantity inv med qty).2 rest

/-- `PatientManager.add_prescription` (`now` stands in for
`str(datetime.now())`): patient lookup, validation phase, commit phase,
history append. Error paths return the state unchanged — in the source they
are `st.error(...); return` before any mutation. -/
def add_prescription (st : PMState) (now : String) (patient_name : String)
    (medicines : List (String × Int)) : PrescResult × PMState :=
  match dictLookup st.patients patient_name with
  | none => (.notFound, st)
  | some pat =>
      let prescription : Prescription := ⟨now, medicines⟩
      match validate_items st.inventory medicines with
      | some med => (.insufficientStock med, st)
      | none =>
          let inv := deduct_items st.inventory medicines
          let pat := { pat with
                       prescriptions := pat.prescriptions ++ [prescription] }
          (.ok prescription,
           { patients := dictSet st.patients patient_name pat,
             inventory := inv })

/-- `PatientManager.get_patient_history`. -/
def get_patient_history (st : PMState) (patient_name : String) :
    Option Patient :=
  dictLookup st.patients patient_name

/-- The price lookup of the report generators:
`inventory.medicines.get(med, {}).get('price', 0.0)` — a missing medicine
contributes price `0.0` rather than raising `KeyError`. -/
def report_price (m : Medicines) (med : String) : Rat :=
  match dictLookup m med with
  | none => 0
  | some d => d.price

/-- One row's `item_total = price * qty` in the report tables. -/
def item_total (m : Medicines) (med : String) (qty : Int) : Rat :=
  report_price m med * (qty : Rat)

/-- The running grand total of a prescription's table
(`total_amount += item_total` over the line items, starting from 0). -/
def prescription_total (m : Medicines) (items : List (String × Int)) : Rat :=
  items.foldl (fun acc it => acc + item_total m it.1 it.2) 0

/-! ### Association-list lemmas -/

theorem dictLookup_set_self {β : Type} (l : List (String × β)) (k : String)
    (v : β) : dictLookup (dictSet l k v) k = some v := by
  induction l with
  | nil => simp [dictSet, dictLookup]
  | cons e rest ih =>
      obtain ⟨k', v'⟩ := e
      by_cases h : k' = k
      · simp [dictSet, dictLookup, h]
      · simp [dictSet, dictLookup, h, ih]

theorem dictLookup_set_ne {β : Type} (l : List (String × β)) (k k₀ : String)
    (v : β) (hne : k₀ ≠ k) : dictLookup (dictSet l k v) k₀ = dictLookup l k₀ := by
  have hne' : k ≠ k₀ := Ne.symm hne
  induction l with
  | nil => simp [dictSet, dictLookup, hne']
  | cons e rest ih =>
      obtain ⟨k', v'⟩ := e
      by_cases h : k' = k
      · subst h
        simp [dictSet, dictLookup, hne']
      · simp [dictSet, dictLookup, h, ih]

theorem dictLookup_eq_none_of_not_mem {β : Type} (l : List (String × β))
    (k : String) (h : k ∉ dictKeys l) : dictLookup l k = none := by
  induction l with
  | nil => rfl
  | cons e rest ih =>
      obtain ⟨k', v'⟩ := e
      simp only [dictKeys, List.map_cons, List.mem_cons] at h
      push_neg at h
      simp [dictLookup, Ne.symm h.1, ih (by simpa [dictKeys] using h.2)]

theorem dictLookup_mem {β : Type} : ∀ (l : List (String × β)) (k : String)
    (v : β), dictLookup l k = some v → (k, v) ∈ l
  | [], k, v, h => by simp [dictLookup] at h
  | (k', v') :: rest, k, v, h => by
      by_cases hk : k' = k
      · subst hk
        rw [dictLookup, if_pos rfl] at h
        cases h
        exact List.mem_cons_self _ _
      · rw [dictLookup, if_neg hk] at h
        exact List.mem_cons_of_mem _ (dictLookup_mem rest k v h)

theorem mem_dictSet {β : Type} : ∀ (l : List (String × β)) (k : String)
    (v : β) (e : String × β), e ∈ dictSet l k v → e ∈ l ∨ e = (k, v)
  | [], k, v, e, h => by
      rw [dictSet, List.mem_singleton] at h
      exact Or.inr h
  | (k', v') :: rest, k, v, e, h => by
      by_cases hk : k' = k
      · rw [dictSet, if_pos hk] at h
        rcases List.mem_cons.mp h with h | h
        · exact Or.inr (by rw [h, hk])
        · exact Or.inl (List.mem_cons_of_mem _ h)
      · rw [dictSet, if_neg hk] at h
        rcases List.mem_cons.mp h with h | h
        · exact Or.inl (by rw [h]; exact List.mem_cons_self _ _)
        · rcases mem_dictSet rest k v e h with h' | h'
          · exact Or.inl (List.mem_cons_of_mem _ h')
          · exact Or.inr h'

theorem mem_dictKeys_set {β : Type} (l : List (String × β)) (k k₀ : String)
    (v : β) (h : k₀ ∈ dictKeys (dictSet l k v)) : k₀ ∈ dictKeys l ∨ k₀ = k := by
  rw [dictKeys, List.mem_map] at h
  obtain ⟨e, he, hk⟩ := h
  rcases mem_dictSet l k v e he with h' | h'
  · exact Or.inl (by rw [dictKeys, List.mem_map]; exact ⟨e, h', hk⟩)
  · subst h'
    exact Or.inr hk.symm

theorem nodup_dictKeys_set {β : Type} (l : List (String × β)) (k : String)
    (v : β) (h : (dictKeys l).Nodup) : (dictKeys (dictSet l k v)).Nodup := by
  induction l with
  | nil => simp [dictSet, dictKeys]
  | cons e rest ih =>
      obtain ⟨k', v'⟩ := e
      simp only [dictKeys, List.map_cons, List.nodup_cons] at h
      by_cases hk : k' = k
      · rw [dictSet, if_pos hk, dictKeys, List.map_cons]
        exact List.nodup_cons.mpr ⟨h.1, h.2⟩
      · rw [dictSet, if_neg hk, dictKeys, List.map_cons]
        refine List.nodup_cons.mpr ⟨?_, ih h.2⟩
        intro hmem
        rcases mem_dictKeys_set rest k k' v hmem with hm | hm
        · exact h.1 hm
        · exact hk hm

theorem dictDel_sublist {β : Type} (l : List (String × β)) (k : String) :
    (dictDel l k).Sublist l := by
  induction l with
  | nil => simp [dictDel]
  | cons e rest ih =>
      obtain ⟨k', v'⟩ := e
      by_cases hk : k' = k
      · rw [dictDel, if_pos hk]
        exact List.sublist_cons_self _ _
      · rw [dictDel, if_neg hk]
        exact List.Sublist.cons₂ _ ih

theorem nodup_dictKeys_del {β : Type} (l : List (String × β)) (k : String)
    (h : (dictKeys l).Nodup) : (dictKeys (dictDel l k)).Nodup :=
  List.Nodup.sublist (List.Sublist.map Prod.fst (dictDel_sublist l k)) h

theorem dictLookup_del_self {β : Type} (l : List (String × β)) (k : String)
    (h : (dictKeys l).Nodup) : dictLookup (dictDel l k) k = none := by
  induction l with
  | nil => rfl
  | cons e rest ih =>
      obtain ⟨k', v'⟩ := e
      simp only [dictKeys, List.map_cons, List.nodup_cons] at h
      by_cases hk : k' = k
      · subst hk
        simp only [dictDel, if_pos rfl]
        exact dictLookup_eq_none_of_not_mem rest k' h.1
      · simp [dictDel, dictLookup, hk, ih h.2]

/-! ### Availability and deduction lemmas -/

theorem check_availability_eq_true_iff (m : Medicines) (name : String)
    (rq : Int) : check_availability m name rq = true ↔
      ∃ d, dictLookup m name = some d ∧ rq ≤ d.quantity := by
  cases h : dictLookup m name with
  | none => simp [check_availability, h]
  | some d => simp [check_availability, h]

theorem deduct_quantity_of_available (m : Medicines) (name : String)
    (qty : Int) (d : MedData) (hd : dictLookup m name = some d)
    (h : qty ≤ d.quantity) :
    deduct_quantity m name qty =
      (true, dictSet m name ⟨d.quantity - qty, d.price⟩) := by
  have hc : check_availability m name qty = true := by
    simp [check_availability, hd, h]
  simp [deduct_quantity, hc, hd]

theorem deduct_quantity_of_not_available (m : Medicines) (name : String)
    (qty : Int) (h : check_availability m name qty = false) :
    deduct_quantity m name qty = (false, m) := by
  simp [deduct_quantity, h]

theorem deduct_quantity_fst (m : Medicines) (name : String) (qty : Int) :
    (deduct_quantity m name qty).1 = check_availability m name qty := by
  cases hd : dictLookup m name with
  | none =>
      have hc : check_availability m name qty = false := by
        simp [check_availability, hd]
      simp [deduct_quantity_of_not_available m name qty hc, hc]
  | some d =>
      by_cases h : qty ≤ d.quantity
      · have hc : check_availability m name qty = true := by
          simp [check_availability, hd, h]
        simp [deduct_quantity_of_available m name qty d hd h, hc]
      · have hc : check_availability m name qty = false := by
          simp [check_availability, hd, h]
        simp [deduct_quantity_of_not_available m name qty hc, hc]

/-! ### Claim theorems: inventory operations -/

/-- C2. For every stored medicine and requested quantity, `deduct_quantity`
succeeds exactly when `check_availability` held immediately before the call;
on success the stored quantity drops by exactly `qty` (price and every other
medicine untouched) and the new quantity is still non-negative; on failure
the whole inventory state is unchanged. -/
theorem deduct_quantity_spec (m : Medicines) (name : String) (qty : Int)
    (d : MedData) (hd : dictLookup m name = some d) :
    ((deduct_quantity m name qty).1 = check_availability m name qty) ∧
    (check_availability m name qty = true →
      dictLookup (deduct_quantity m name qty).2 name =
          some ⟨d.quantity - qty, d.price⟩ ∧
      0 ≤ d.quantity - qty ∧
      ∀ other, other ≠ name →
        dictLookup (deduct_quantity m name qty).2 other =
          dictLookup m other) ∧
    (check_availability m name qty = false →
      (deduct_quantity m name qty).2 = m) := by
  refine ⟨deduct_quantity_fst m name qty, ?_, ?_⟩
  · intro hc
    obtain ⟨d', hd', hq'⟩ := (check_availability_eq_true_iff m name qty).mp hc
    rw [hd] at hd'
    cases hd'
    rw [deduct_quantity_of_available m name qty d hd hq']
    refine ⟨dictLookup_set_self m name _, sub_nonneg.mpr hq', ?_⟩
    intro other hne
    exact dictLookup_set_ne m name other _ hne
  · intro hc
    rw [deduct_quantity_of_not_available m name qty hc]

/-- Witness for C2 at a concrete inventory: deducting 5 of a stocked
medicine with quantity 50 leaves quantity 45. -/
theorem deduct_quantity_spec_witness :
    dictLookup (deduct_quantity [("Ibupara", ⟨50, 10⟩)] "Ibupara" 5).2
        "Ibupara" = some ⟨50 - 5, 10⟩ :=
  ((deduct_quantity_spec [("Ibupara", ⟨50, 10⟩)] "Ibupara" 5 ⟨50, 10⟩
    (by decide)).2.1 (by decide)).1

/-- C5. Adding a fresh medicine stores exactly the given quantity and price,
a lookup then returns exactly that record, and a second `add_medicine` under
the same name — with any quantity and price — fails with `DuplicateKey`
(the source's `st.error`-and-`return` path, which mutates nothing, so the
caller's state is unchanged). -/
theorem add_medicine_spec (m : Medicines) (name : String) (qty : Int)
    (price : Rat) (h : dictLookup m name = none) :
    ∃ m', add_medicine m name qty price = .ok m' ∧
      dictLookup m' name = some ⟨qty, price⟩ ∧
      ∀ qty' price', add_medicine m' name qty' price' = .error .DuplicateKey := by
  refine ⟨dictSet m name ⟨qty, price⟩, ?_, dictLookup_set_self m name _, ?_⟩
  · simp [add_medicine, h]
  · intro qty' price'
    simp [add_medicine, dictLookup_set_self m name ⟨qty, price⟩]

/-- Witness for C5: adding "Oxidocin" to the empty inventory. -/
theorem add_medicine_spec_witness :
    ∃ m', add_medicine [] "Oxidocin" 7 (5/2) = .ok m' ∧
      dictLookup m' "Oxidocin" = some ⟨7, 5/2⟩ ∧
      ∀ qty' price',
        add_medicine m' "Oxidocin" qty' price' = .error .DuplicateKey :=
  add_medicine_spec [] "Oxidocin" 7 (5/2) rfl

/-- C6. `check_availability` returns `true` exactly when the name is stored
with quantity at least the requirement — so `false`, not an error, when the
name is absent or the stock is short (the function is a pure query: it takes
the state and returns only a `Bool`). In particular, after a successful
`delete_medicine` the availability check for the deleted name returns
`false`. -/
theorem check_availability_spec :
    (∀ (m : Medicines) (name : String) (rq : Int),
        check_availability m name rq = true ↔
          ∃ d, dictLookup m name = some d ∧ rq ≤ d.quantity) ∧
    (∀ (m m' : Medicines) (name : String), (dictKeys m).Nodup →
        delete_medicine m name = .ok m' →
        check_availability m' name 1 = false) := by
  refine ⟨check_availability_eq_true_iff, ?_⟩
  intro m m' name hnd hdel
  have hm' : m' = dictDel m name := by
    by_cases h : (dictLookup m name).isSome
    · rw [delete_medicine, if_pos h] at hdel
      cases hdel
      rfl
    · rw [delete_medicine, if_neg h] at hdel
      cases hdel
  subst hm'
  simp [check_availability, dictLookup_del_self m name hnd]

/-- C7. `get_low_stock` returns exactly the entries whose quantity is
strictly below the fixed threshold 10, for any inventory state including the
empty one (a pure query: it takes the state and returns only the filtered
entries). -/
theorem get_low_stock_spec (m : Medicines) (name : String) (d : MedData) :
    (name, d) ∈ get_low_stock m ↔ (name, d) ∈ m ∧ d.quantity < 10 := by
  simp [get_low_stock, List.mem_filter]

/-- C10. `update_quantity` on a present name stores exactly the caller's new
quantity — any `Int`, negative values included — keeping the price; the
operation performs no non-negativity check of its own. -/
theorem update_quantity_spec (m : Medicines) (name : String)
    (new_quantity : Int) (d : MedData) (hd : dictLookup m name = some d) :
    ∃ m', update_quantity m name new_quantity = .ok m' ∧
      dictLookup m' name = some ⟨new_quantity, d.price⟩ := by
  refine ⟨dictSet m name ⟨new_quantity, d.price⟩, ?_, dictLookup_set_self m name _⟩
  simp [update_quantity, hd]

/-- Witness for C10 at a negative new quantity: the stored quantity becomes
`-5`. -/
theorem update_quantity_spec_witness :
    ∃ m', update_quantity [("Ors", ⟨50, 10⟩)] "Ors" (-5) = .ok m' ∧
      dictLookup m' "Ors" = some ⟨-5, 10⟩ :=
  update_quantity_spec [("Ors", ⟨50, 10⟩)] "Ors" (-5) ⟨50, 10⟩ (by decide)

/-! ### Prescription-transaction lemmas -/

theorem check_availability_congr (m m' : Medicines) (name : String)
    (rq : Int) (h : dictLookup m' name = dictLookup m name) :
    check_availability m' name rq = check_availability m name rq := by
  simp only [check_availability, h]

theorem validate_items_eq_none_iff (inv : Medicines)
    (items : List (String × Int)) :
    validate_items inv items = none ↔
      ∀ it ∈ items, check_availability inv it.1 it.2 = true := by
  induction items with
  | nil => simp [validate_items]
  | cons it rest ih =>
      obtain ⟨med, qty⟩ := it
      by_cases h : check_availability inv med qty = true
      · simp [validate_items, h, ih]
      · simp [validate_items, h]

theorem deduct_items_spec (items : List (String × Int)) (inv : Medicines)
    (hnd : (dictKeys items).Nodup)
    (hall : ∀ it ∈ items, check_availability inv it.1 it.2 = true) :
    (∀ it ∈ items, ∀ d, dictLookup inv it.1 = some d →
        dictLookup (deduct_items inv items) it.1 =
          some ⟨d.quantity - it.2, d.price⟩) ∧
    (∀ name, name ∉ dictKeys items →
        dictLookup (deduct_items inv items) name = dictLookup inv name) := by
  induction items generalizing inv with
  | nil => simp [deduct_items]
  | cons it rest ih =>
      obtain ⟨med, qty⟩ := it
      have hhead : check_availability inv med qty = true :=
        hall _ (List.mem_cons_self _ _)
      obtain ⟨d, hd, hq⟩ :=
        (check_availability_eq_true_iff inv med qty).mp hhead
      have hded := deduct_quantity_of_available inv med qty d hd hq
      have hstep : deduct_items inv ((med, qty) :: rest) =
          deduct_items (dictSet inv med ⟨d.quantity - qty, d.price⟩) rest := by
        rw [deduct_items, hded]
      have hmed_not : med ∉ dictKeys rest :=
        (List.nodup_cons.mp (by simpa [dictKeys] using hnd)).1
      have hnd' : (dictKeys rest).Nodup :=
        (List.nodup_cons.mp (by simpa [dictKeys] using hnd)).2
      have hall' : ∀ it ∈ rest,
          check_availability (dictSet inv med ⟨d.quantity - qty, d.price⟩)
            it.1 it.2 = true := by
        intro it hit
        have hne : it.1 ≠ med := fun he =>
          hmed_not (he ▸ List.mem_map_of_mem Prod.fst hit)
        rw [check_availability_congr _ _ _ _
          (dictLookup_set_ne inv med it.1 _ hne)]
        exact hall it (List.mem_cons_of_mem _ hit)
      obtain ⟨ih1, ih2⟩ := ih _ hnd' hall'
      constructor
      · intro it hit d' hd'
        rcases List.mem_cons.mp hit with he | hit'
        · subst he
          rw [hd] at hd'
          cases hd'
          rw [hstep, ih2 med hmed_not]
          exact dictLookup_set_self inv med _
        · have hne : it.1 ≠ med := fun he =>
            hmed_not (he ▸ List.mem_map_of_mem Prod.fst hit')
          rw [hstep]
          exact ih1 it hit' d'
            (by rw [dictLookup_set_ne inv med it.1 _ hne]; exact hd')
      · intro name hname
        have hname' : name ∉ dictKeys rest := fun hm =>
          hname (by simpa [dictKeys] using Or.inr (by simpa [dictKeys] using hm))
        have hne : name ≠ med := fun he =>
          hname (by simp [dictKeys, he])
        rw [hstep, ih2 name hname', dictLookup_set_ne inv med name _ hne]

/-! ### Claim theorems: the prescription transaction -/

/-- C1. For a registered patient, if at least one line item fails the
availability check, `add_prescription` reports `InsufficientStock` and
returns the state unchanged: in the source the failing branch is
`st.error(...); return` reached before any deduction or append, so no
medicine's quantity changes and no record joins the patient's history. -/
theorem add_prescription_insufficient (st : PMState)
    (now patient_name : String) (medicines : List (String × Int))
    (pat : Patient) (hp : dictLookup st.patients patient_name = some pat)
    (hfail : ∃ it ∈ medicines,
      check_availability st.inventory it.1 it.2 = false) :
    ∃ med, add_prescription st now patient_name medicines =
      (.insufficientStock med, st) := by
  obtain ⟨it, hit, hf⟩ := hfail
  cases hv : validate_items st.inventory medicines with
  | none =>
      have := (validate_items_eq_none_iff st.inventory medicines).mp hv it hit
      rw [hf] at this
      cases this
  | some med =>
      refine ⟨med, ?_⟩
      rw [add_prescription, hp]
      simp [hv]

/-- Witness for C1: prescribing 100 units against a stock of 50 fails with
`InsufficientStock` and leaves the state exactly as it was. -/
theorem add_prescription_insufficient_witness :
    ∃ med,
      add_prescription
        ⟨[("Alice", ⟨30, "Female", []⟩)], [("Paracetamol 500mg", ⟨50, 10⟩)]⟩
        "2024-01-01" "Alice" [("Paracetamol 500mg", 100)] =
      (.insufficientStock med,
       ⟨[("Alice", ⟨30, "Female", []⟩)], [("Paracetamol 500mg", ⟨50, 10⟩)]⟩) :=
  add_prescription_insufficient
    ⟨[("Alice", ⟨30, "Female", []⟩)], [("Paracetamol 500mg", ⟨50, 10⟩)]⟩
    "2024-01-01" "Alice" [("Paracetamol 500mg", 100)] ⟨30, "Female", []⟩
    (by decide) ⟨("Paracetamol 500mg", 100), by decide⟩

/-- C3. For a registered patient whose line items all pass the availability
check (their medicine names pairwise distinct, as Python dict keys are),
`add_prescription` returns the created record, deducts every listed
medicine's stock by exactly its requested quantity, leaves every unlisted
medicine untouched, and appends exactly that one record — line items equal
to the input — to this patient's history, every other patient untouched. -/
theorem add_prescription_success (st : PMState) (now patient_name : String)
    (medicines : List (String × Int)) (pat : Patient)
    (hp : dictLookup st.patients patient_name = some pat)
    (hnd : (dictKeys medicines).Nodup)
    (hall : ∀ it ∈ medicines,
      check_availability st.inventory it.1 it.2 = true) :
    (add_prescription st now patient_name medicines).1 =
        .ok ⟨now, medicines⟩ ∧
    (∀ it ∈ medicines, ∀ d, dictLookup st.inventory it.1 = some d →
      dictLookup (add_prescription st now patient_name medicines).2.inventory
        it.1 = some ⟨d.quantity - it.2, d.price⟩) ∧
    (∀ name, name ∉ dictKeys medicines →
      dictLookup (add_prescription st now patient_name medicines).2.inventory
        name = dictLookup st.inventory name) ∧
    dictLookup (add_prescription st now patient_name medicines).2.patients
        patient_name =
      some { pat with
             prescriptions := pat.prescriptions ++ [⟨now, medicines⟩] } ∧
    (∀ other, other ≠ patient_name →
      dictLookup (add_prescription st now patient_name medicines).2.patients
        other = dictLookup st.patients other) := by
  have hv : validate_items st.inventory medicines = none :=
    (validate_items_eq_none_iff st.inventory medicines).mpr hall
  have hrun : add_prescription st now patient_name medicines =
      (.ok ⟨now, medicines⟩,
       { patients := dictSet st.patients patient_name
           { pat with
             prescriptions := pat.prescriptions ++ [⟨now, medicines⟩] },
         inventory := deduct_items st.inventory medicines }) := by
    rw [add_prescription, hp]
    simp [hv]
  obtain ⟨hded, huntouched⟩ := deduct_items_spec medicines st.inventory hnd hall
  rw [hrun]
  exact ⟨rfl, hded, huntouched, dictLookup_set_self _ _ _,
    fun other hne => dictLookup_set_ne _ _ other _ hne⟩

/-- Witness for C3, the spec's own scenario: stock 50, prescribe 5 — the
stock becomes 45 and the record is returned and appended. -/
theorem add_prescription_success_witness :
    (add_prescription
        ⟨[("Alice", ⟨30, "Female", []⟩)], [("Paracetamol 500mg", ⟨50, 10⟩)]⟩
        "2024-01-01" "Alice" [("Paracetamol 500mg", 5)]).1 =
      .ok ⟨"2024-01-01", [("Paracetamol 500mg", 5)]⟩ ∧
    dictLookup (add_prescription
        ⟨[("Alice", ⟨30, "Female", []⟩)], [("Paracetamol 500mg", ⟨50, 10⟩)]⟩
        "2024-01-01" "Alice" [("Paracetamol 500mg", 5)]).2.inventory
      "Paracetamol 500mg" = some ⟨50 - 5, 10⟩ := by
  have h := add_prescription_success
    ⟨[("Alice", ⟨30, "Female", []⟩)], [("Paracetamol 500mg", ⟨50, 10⟩)]⟩
    "2024-01-01" "Alice" [("Paracetamol 500mg", 5)] ⟨30, "Female", []⟩
    (by decide) (by decide) (by decide)
  exact ⟨h.1, h.2.1 ("Paracetamol 500mg", 5) (by decide) ⟨50, 10⟩ (by decide)⟩

/-- C9. `add_prescription` with an empty line-item dict succeeds for any
registered patient: both loops are vacuous, the inventory is returned
unchanged, and exactly one record with an empty line-item dict is appended
to the patient's history and returned — the code never requires the dict to
be non-empty. -/
theorem add_prescription_empty (st : PMState) (now patient_name : String)
    (pat : Patient) (hp : dictLookup st.patients patient_name = some pat) :
    add_prescription st now patient_name [] =
      (.ok ⟨now, []⟩,
       { patients := dictSet st.patients patient_name
           { pat with prescriptions := pat.prescriptions ++ [⟨now, []⟩] },
         inventory := st.inventory }) := by
  rw [add_prescription, hp]
  simp [validate_items, deduct_items]

/-- Witness for C9: an empty prescription for a concrete patient. -/
theorem add_prescription_empty_witness :
    add_prescription ⟨[("Bob", ⟨40, "Male", []⟩)], []⟩ "2024-01-01" "Bob" [] =
      (.ok ⟨"2024-01-01", []⟩,
       ⟨[("Bob", ⟨40, "Male", [⟨"2024-01-01", []⟩]⟩)], []⟩) :=
  add_prescription_empty ⟨[("Bob", ⟨40, "Male", []⟩)], []⟩ "2024-01-01" "Bob"
    ⟨40, "Male", []⟩ (by decide)

/-! ### The inventory data invariant -/

/-- The spec's data-model invariant for `MedicineRecord`s: no two entries
share a name and every quantity is non-negative. -/
def inventory_invariant (m : Medicines) : Prop :=
  (dictKeys m).Nodup ∧ ∀ e ∈ m, 0 ≤ e.2.quantity

theorem inventory_invariant_set (m : Medicines) (name : String) (d : MedData)
    (hm : inventory_invariant m) (hd : 0 ≤ d.quantity) :
    inventory_invariant (dictSet m name d) := by
  refine ⟨nodup_dictKeys_set m name d hm.1, ?_⟩
  intro e he
  rcases mem_dictSet m name d e he with h | h
  · exact hm.2 e h
  · rw [h]
    exact hd

theorem inventory_invariant_del (m : Medicines) (name : String)
    (hm : inventory_invariant m) : inventory_invariant (dictDel m name) :=
  ⟨nodup_dictKeys_del m name hm.1,
   fun e he => hm.2 e ((dictDel_sublist m name).subset he)⟩

theorem inventory_invariant_deduct (m : Medicines) (name : String)
    (qty : Int) (hm : inventory_invariant m) :
    inventory_invariant (deduct_quantity m name qty).2 := by
  cases hd : dictLookup m name with
  | none =>
      have hc : check_availability m name qty = false := by
        simp [check_availability, hd]
      rw [deduct_quantity_of_not_available m name qty hc]
      exact hm
  | some d =>
      by_cases h : qty ≤ d.quantity
      · rw [deduct_quantity_of_available m name qty d hd h]
        exact inventory_invariant_set m name _ hm (sub_nonneg.mpr h)
      · have hc : check_availability m name qty = false := by
          simp [check_availability, hd, h]
        rw [deduct_quantity_of_not_available m name qty hc]
        exact hm

theorem inventory_invariant_deduct_items (items : List (String × Int)) :
    ∀ m : Medicines, inventory_invariant m →
      inventory_invariant (deduct_items m items) := by
  induction items with
  | nil =>
      intro m hm
      exact hm
  | cons it rest ih =>
      intro m hm
      obtain ⟨med, qty⟩ := it
      rw [deduct_items]
      exact ih _ (inventory_invariant_deduct m med qty hm)

/-- C4. The invariant — pairwise-distinct names, all quantities ≥ 0 — holds
of the default seed catalog and is preserved by every operation of the two
components. `add_medicine` and `update_quantity` need the spec's caller
obligation of a non-negative supplied quantity; deduction-driven updates
(and hence `add_prescription`, whatever its line items) preserve it
unconditionally, because `deduct_quantity` only fires when
`quantity ≥ qty`. -/
theorem inventory_invariant_preserved :
    inventory_invariant get_default_medicines ∧
    (∀ m name qty price m', inventory_invariant m → 0 ≤ qty →
        add_medicine m name qty price = .ok m' → inventory_invariant m') ∧
    (∀ m name new_quantity m', inventory_invariant m → 0 ≤ new_quantity →
        update_quantity m name new_quantity = .ok m' →
        inventory_invariant m') ∧
    (∀ m name m', inventory_invariant m →
        delete_medicine m name = .ok m' → inventory_invariant m') ∧
    (∀ m name qty, inventory_invariant m →
        inventory_invariant (deduct_quantity m name qty).2) ∧
    (∀ st name age gender st', inventory_invariant st.inventory →
        add_patient st name age gender = .ok st' →
        inventory_invariant st'.inventory) ∧
    (∀ st now patient_name medicines, inventory_invariant st.inventory →
        inventory_invariant
          (add_prescription st now patient_name medicines).2.inventory) := by
  refine ⟨⟨by decide, by decide⟩, ?_, ?_, ?_, ?_, ?_, ?_⟩
  · intro m name qty price m' hm hq hok
    by_cases h : (dictLookup m name).isSome
    · rw [add_medicine, if_pos h] at hok
      cases hok
    · rw [add_medicine, if_neg h] at hok
      cases hok
      exact inventory_invariant_set m name ⟨qty, price⟩ hm hq
  · intro m name new_quantity m' hm hq hok
    cases hd : dictLookup m name with
    | none => simp [update_quantity, hd] at hok
    | some d =>
        simp only [update_quantity, hd, Except.ok.injEq] at hok
        cases hok
        exact inventory_invariant_set m name _ hm hq
  · intro m name m' hm hok
    by_cases h : (dictLookup m name).isSome
    · rw [delete_medicine, if_pos h] at hok
      cases hok
      exact inventory_invariant_del m name hm
    · rw [delete_medicine, if_neg h] at hok
      cases hok
  · intro m name qty hm
    exact inventory_invariant_deduct m name qty hm
  · intro st name age gender st' hm hok
    by_cases h : (dictLookup st.patients name).isSome
    · rw [add_patient, if_pos h] at hok
      cases hok
    · rw [add_patient, if_neg h] at hok
      cases hok
      exact hm
  · intro st now patient_name medicines hm
    cases hp : dictLookup st.patients patient_name with
    | none =>
        simp only [add_prescription, hp]
        exact hm
    | some pat =>
        cases hv : validate_items st.inventory medicines with
        | some med =>
            simp only [add_prescription, hp, hv]
            exact hm
        | none =>
            simp only [add_prescription, hp, hv]
            exact inventory_invariant_deduct_items medicines st.inventory hm

/-! ### Claim theorems: report price lookups -/

/-- C8. A line item whose medicine name is no longer in the inventory is
priced at `0.0` by the report computations — `dict.get` with a default, not
a `KeyError` — so its row total is `0` and it contributes nothing to the
running grand total: report generation is a total function of any history,
including one referencing deleted medicines. -/
theorem report_price_missing (inv : Medicines) (med : String) (qty : Int)
    (items : List (String × Int)) (h : dictLookup inv med = none) :
    report_price inv med = 0 ∧
    item_total inv med qty = 0 ∧
    prescription_total inv ((med, qty) :: items) =
      prescription_total inv items := by
  have hp : report_price inv med = 0 := by simp [report_price, h]
  have hi : item_total inv med qty = 0 := by simp [item_total, hp]
  refine ⟨hp, hi, ?_⟩
  simp [prescription_total, hi]

/-- Witness for C8: pricing a prescription that references a medicine
absent from the inventory. -/
theorem report_price_missing_witness :
    report_price [("Ibupara", ⟨50, 10⟩)] "Paracetamol 500mg" = 0 ∧
    item_total [("Ibupara", ⟨50, 10⟩)] "Paracetamol 500mg" 3 = 0 ∧
    prescription_total [("Ibupara", ⟨50, 10⟩)]
        [("Paracetamol 500mg", 3), ("Ibupara", 2)] =
      prescription_total [("Ibupara", ⟨50, 10⟩)] [("Ibupara", 2)] :=
  report_price_missing [("Ibupara", ⟨50, 10⟩)] "Paracetamol 500mg" 3
    [("Ibupara", 2)] (by decide)

end HospitalManagementSystem
